import Mathlib

/-!
Verification of the diet-optimizer core (greedy selector, macro balancer,
LP selector fallback, meal distributors) against its specification.

All JavaScript numbers are modelled as exact rationals.  Where the source can
divide by zero, the float outcome (Infinity / NaN) is modelled explicitly by
the small sum types below; the comments at each such site record the
correspondence.  Math.round is round-half-up (floor of x + 1/2), as in JS.
-/

/-- Reference data for one nutrient (name, reference value, unit). -/
structure Nutrient where
  name : String
  nrv : ℚ
  unit : String
deriving DecidableEq

/-- Per-100g amount of one nutrient inside an ingredient. -/
structure IngredientNutrient where
  amount : ℚ
  nutrient : Nutrient
deriving DecidableEq

/-- Macronutrient grams per 100 g. -/
structure Macros where
  protein : ℚ
  carbs : ℚ
  fat : ℚ
deriving DecidableEq

/-- Catalog ingredient: nutrient contents, macros, and a name.  A name that
contains the substring "Supplement" marks the ingredient as a supplement. -/
structure Ingredient where
  nutrients : List IngredientNutrient
  macros : Macros
  name : String
deriving DecidableEq

inductive Sex where
  | male
  | female
deriving DecidableEq

inductive ActivityLevel where
  | sedentary
  | light
  | moderate
  | very
deriving DecidableEq

/-- Goal variants.  The lose-fat payload carries a target date, modelled as a
millisecond epoch timestamp, exactly as consumed by getTime in the source. -/
inductive Goal where
  | buildMuscle
  | loseFat (targetBodyFatPercentage : ℚ) (targetDate : ℤ)
  | maintain
deriving DecidableEq

structure TargetMacros where
  proteinPercentage : ℚ
  carbsPercentage : ℚ
  fatPercentage : ℚ
deriving DecidableEq

structure Meal where
  name : String
  kcalPercentage : ℚ
deriving DecidableEq

structure DietMealIngredient where
  ingredient : Ingredient
  amount : ℚ
deriving DecidableEq

structure DietMeal where
  meal : Meal
  ingredients : List DietMealIngredient
deriving DecidableEq

structure Diet where
  meals : List DietMeal
deriving DecidableEq

structure GetDietInput where
  sex : Sex
  age : ℚ
  bodyWeight : ℚ
  bodyFatPercentage : ℚ
  activityLevel : ActivityLevel
  goal : Goal
  targetMacros : TargetMacros
  ingredients : List Ingredient
  nutrients : List Nutrient
  meals : List Meal
deriving DecidableEq

/-- Mutable per-run ledger entry for one nutrient. -/
structure NutrientTracking where
  nutrient : Nutrient
  consumed : ℚ
  percentage : ℚ
deriving DecidableEq

structure MacroTracking where
  protein : ℚ
  carbs : ℚ
  fat : ℚ
deriving DecidableEq

structure IngredientSelection where
  ingredient : Ingredient
  amount : ℚ
deriving DecidableEq

/-- Check that `pat` is a contiguous sublist of `l` (character lists). -/
def listContainsSub (l pat : List Char) : Bool :=
  match l with
  | [] => pat.isEmpty
  | _ :: cs => pat.isPrefixOf l || listContainsSub cs pat

/-- JavaScript String.prototype.includes, on the underlying character lists. -/
def strContains (s pat : String) : Bool :=
  listContainsSub s.data pat.data

/-- ASCII lower-casing of a character, as toLowerCase acts on the ASCII
ingredient names appearing in the sorting heuristic. -/
def charLower (c : Char) : Char :=
  if 'A' ≤ c ∧ c ≤ 'Z' then Char.ofNat (c.toNat + 32) else c

/-- Character list of the lower-cased name (String.prototype.toLowerCase). -/
def lowerData (s : String) : List Char :=
  s.data.map charLower

/-- Math.round: round half toward positive infinity. -/
def jsRound (q : ℚ) : ℚ :=
  ((⌊q + 1/2⌋ : ℤ) : ℚ)

/-! ## Energy model (calculateTDEE, adjustCaloriesForGoal, calculateTargetMacros) -/

/-- Activity multiplier table from calculateTDEE. -/
def activityMultiplier : ActivityLevel → ℚ
  | .sedentary => 1.2
  | .light => 1.375
  | .moderate => 1.55
  | .very => 1.725

/-- Katch-McArdle TDEE.  sex and age are accepted but unused, as in the
source. -/
def calculateTDEE (sex : Sex) (age : ℚ) (bodyWeight : ℚ)
    (bodyFatPercentage : ℚ) (activityLevel : ActivityLevel) : ℚ :=
  let leanBodyMass := bodyWeight * (1 - bodyFatPercentage / 100)
  let bmr := 370 + 21.6 * leanBodyMass
  bmr * activityMultiplier activityLevel

/-- Goal adjustment.  The lose-fat branch reads the ambient clock
(new Date in the source) to compute daysToTarget; the value is dead, so the
clock is threaded as the explicit `now` argument of this model. -/
def adjustCaloriesForGoal (tdee : ℚ) (goal : Goal) (bodyWeight : ℚ)
    (now : ℤ) : ℚ :=
  match goal with
  | .buildMuscle => tdee * 1.15
  | .loseFat _targetBodyFatPercentage targetDate =>
      let _daysToTarget : ℤ := ⌈((targetDate - now : ℤ) : ℚ) / (1000 * 60 * 60 * 24)⌉
      let _maxDeficit := tdee * 0.75
      let minIntake : ℚ := if bodyWeight < 70 then 1200 else 1500
      max (tdee * 0.8) minIntake
  | .maintain => tdee

/-- Percentage targets to grams (protein and carbs at 4 kcal/g, fat at 9). -/
def calculateTargetMacros (calories : ℚ) (targetMacros : TargetMacros) :
    MacroTracking :=
  let proteinCalories := calories * targetMacros.proteinPercentage / 100
  let carbsCalories := calories * targetMacros.carbsPercentage / 100
  let fatCalories := calories * targetMacros.fatPercentage / 100
  ⟨proteinCalories / 4, carbsCalories / 4, fatCalories / 9⟩

/-! ## Greedy selector -/

def calculateCaloriesFromMacros (macros : Macros) : ℚ :=
  macros.protein * 4 + macros.carbs * 4 + macros.fat * 9

def calculateTotalCalories (macros : MacroTracking) : ℚ :=
  macros.protein * 4 + macros.carbs * 4 + macros.fat * 9

def initializeNutrientTracking (nutrients : List Nutrient) :
    List NutrientTracking :=
  nutrients.map fun nutrient => ⟨nutrient, 0, 0⟩

def areAllNRVsMet (tracking : List NutrientTracking) : Bool :=
  tracking.all fun t => decide (100 ≤ t.percentage)

/-- Array.prototype.find over the tracking ledger by nutrient name. -/
def findTracking (tracking : List NutrientTracking) (nm : String) :
    Option NutrientTracking :=
  tracking.find? fun t => t.nutrient.name == nm

/-- Value of a JS float expression as consumed by the score comparison.
`undef` stands for NaN and for negative Infinity: neither ever wins the
strict greater-than test against a previous best (NaN compares false, and
negative Infinity exceeds nothing), so they share one representation. -/
inductive Score where
  | undef : Score
  | inf : Score
  | fin : ℚ → Score
deriving DecidableEq

/-- JS addition on score values: NaN absorbs, then Infinity absorbs.
(Infinity plus negative Infinity is NaN in JS; the `undef` case is matched
first, so the combined representation stays faithful.) -/
def Score.add : Score → Score → Score
  | .undef, _ => .undef
  | _, .undef => .undef
  | .inf, _ => .inf
  | _, .inf => .inf
  | .fin a, .fin b => .fin (a + b)

/-- Does score `s` strictly exceed the best seen so far (`none` is the
initial negative Infinity)? -/
def Score.beats : Score → Option Score → Bool
  | .undef, _ => false
  | .inf, none => true
  | .inf, some .inf => false
  | .inf, some .undef => true
  | .inf, some (.fin _) => true
  | .fin _, none => true
  | .fin _, some .inf => false
  | .fin _, some .undef => true
  | .fin a, some (.fin b) => decide (b < a)

/-- Macro-balance score.  All three JS ratio comparisons are false when a
total is zero (the ratios are then NaN), hence the explicit guards. -/
def calculateMacroScore (ingredientMacros : Macros)
    (currentMacros targetMacros : MacroTracking) : ℚ :=
  let currentTotal := currentMacros.protein + currentMacros.carbs + currentMacros.fat
  let targetTotal := targetMacros.protein + targetMacros.carbs + targetMacros.fat
  if currentTotal = 0 then 1
  else
    let ingredientTotal := ingredientMacros.protein + ingredientMacros.carbs + ingredientMacros.fat
    let branch : ℚ → ℚ → ℚ → ℚ := fun c t i =>
      if (targetTotal ≠ 0 ∧ c / currentTotal < t / targetTotal) ∧
         (ingredientTotal ≠ 0 ∧ c / currentTotal < i / ingredientTotal) then
        (i / ingredientTotal - c / currentTotal) * 2
      else 0
    branch currentMacros.protein targetMacros.protein ingredientMacros.protein +
      branch currentMacros.carbs targetMacros.carbs ingredientMacros.carbs +
      branch currentMacros.fat targetMacros.fat ingredientMacros.fat

/-- Nutrient-density and macro-balance score of one candidate ingredient.
A candidate whose per-100g calories exceed the remaining budget scores
-1000.  The density term amount / caloriesPer100g is Infinity in JS for a
zero-calorie ingredient with positive nutrient amount, and NaN for the
zero-amount case; multiplying by the positive deficiency times 10 keeps
Infinity. -/
def calculateIngredientScore (ingredient : Ingredient)
    (nutrientTracking : List NutrientTracking)
    (currentMacros targetMacros : MacroTracking)
    (remainingCalories : ℚ) : Score :=
  let caloriesPer100g := calculateCaloriesFromMacros ingredient.macros
  if remainingCalories < caloriesPer100g then .fin (-1000)
  else
    let nutrientScore := ingredient.nutrients.foldl
      (fun sc inut =>
        match findTracking nutrientTracking inut.nutrient.name with
        | some t =>
          if t.percentage < 100 then
            let deficiency := 100 - t.percentage
            let term : Score :=
              if caloriesPer100g = 0 then
                (if 0 < inut.amount then .inf else .undef)
              else .fin (inut.amount / caloriesPer100g * deficiency * 10)
            sc.add term
          else sc
        | none => sc)
      (Score.fin 0)
    nutrientScore.add
      (.fin (calculateMacroScore ingredient.macros currentMacros targetMacros * 5))

/-- Pick the strictly best-scoring ingredient; catalog order breaks ties. -/
def findBestIngredient (ingredients : List Ingredient)
    (nutrientTracking : List NutrientTracking)
    (currentMacros targetMacros : MacroTracking)
    (remainingCalories : ℚ) : Option Ingredient :=
  (ingredients.foldl
    (fun acc ingredient =>
      let s := calculateIngredientScore ingredient nutrientTracking
        currentMacros targetMacros remainingCalories
      if s.beats (acc.map Prod.snd) then some (ingredient, s) else acc)
    none).map Prod.fst

/-- A JS float that is either finite or positive Infinity, as produced by
the divisions inside calculateOptimalAmount (positive numerator over zero).
Infinity is neutral for the Math.min chain that consumes these values. -/
inductive ExtQ where
  | inf : ExtQ
  | fin : ℚ → ExtQ
deriving DecidableEq

/-- Math.min with a possibly-infinite left operand. -/
def ExtQ.minE : ExtQ → ExtQ → ExtQ
  | .inf, b => b
  | .fin a, .inf => .fin a
  | .fin a, .fin b => .fin (min a b)

/-- Collapse against a finite value (the final Math.min of the chain). -/
def ExtQ.collapse : ExtQ → ℚ → ℚ
  | .inf, d => d
  | .fin a, d => min a d

/-- Largest grams addable without exceeding any macro target (each limit
(targetRemaining / ingredientMacroPer100g) * 100, kept only if positive),
combined by Math.min, with a 10 percent buffer; 500 when no limit exists. -/
def calculateMacroLimitedAmount (ingredientMacros : Macros)
    (currentMacros targetMacros : MacroTracking) : ℚ :=
  let proteinLimits : List ℚ :=
    if 0 < ingredientMacros.protein then
      let proteinLimit := (targetMacros.protein - currentMacros.protein) /
        ingredientMacros.protein * 100
      if 0 < proteinLimit then [proteinLimit] else []
    else []
  let carbsLimits : List ℚ :=
    if 0 < ingredientMacros.carbs then
      let carbsLimit := (targetMacros.carbs - currentMacros.carbs) /
        ingredientMacros.carbs * 100
      if 0 < carbsLimit then [carbsLimit] else []
    else []
  let fatLimits : List ℚ :=
    if 0 < ingredientMacros.fat then
      let fatLimit := (targetMacros.fat - currentMacros.fat) /
        ingredientMacros.fat * 100
      if 0 < fatLimit then [fatLimit] else []
    else []
  match proteinLimits ++ carbsLimits ++ fatLimits with
  | [] => 500
  | l :: ls => ls.foldl min l * 1.1

/-- Optimal amount of the chosen ingredient.  The starting value takes 15
percent of the remaining calories in this ingredient; it is Infinity in JS
when the ingredient has zero calories per 100 g (the remaining budget is
positive whenever the selection loop calls this).  For every nutrient still
under 100 percent of NRV the amount is capped at 1.2 times the grams meeting
the need (Infinity when the ingredient carries none of that nutrient but the
positive need divides by its zero content).  Then the macro-limited cap
applies, and the result is clamped to [1,10] g for supplements and
[5,500] g for foods after Math.round. -/
def calculateOptimalAmount (ingredient : Ingredient)
    (nutrientTracking : List NutrientTracking)
    (currentMacros targetMacros : MacroTracking)
    (remainingCalories : ℚ) : ℚ :=
  let caloriesPer100g := calculateCaloriesFromMacros ingredient.macros
  let start : ExtQ :=
    if caloriesPer100g = 0 then .inf
    else .fin (remainingCalories * 0.15 / (caloriesPer100g / 100))
  let afterNutrients : ExtQ := ingredient.nutrients.foldl
    (fun (acc : ExtQ) (inut : IngredientNutrient) =>
      match findTracking nutrientTracking inut.nutrient.name with
      | some t =>
        if t.percentage < 100 then
          let neededAmount := t.nutrient.nrv - t.consumed
          let cap : ExtQ :=
            if inut.amount = 0 then .inf
            else .fin (neededAmount / inut.amount * 100 * 1.2)
          acc.minE cap
        else acc
      | none => acc)
    start
  let macroLimitedAmount := calculateMacroLimitedAmount ingredient.macros
    currentMacros targetMacros
  let optimalAmount := afterNutrients.collapse macroLimitedAmount
  let maxAmount : ℚ := if strContains ingredient.name "Supplement" then 10 else 500
  let minAmount : ℚ := if strContains ingredient.name "Supplement" then 1 else 5
  max minAmount (min maxAmount (jsRound optimalAmount))

/-- Merge a new pick into the selection list: the first entry with the same
ingredient name accumulates the amount, otherwise the pick is appended. -/
def addSelection : List IngredientSelection → Ingredient → ℚ →
    List IngredientSelection
  | [], ingredient, amount => [⟨ingredient, amount⟩]
  | s :: rest, ingredient, amount =>
    if s.ingredient.name == ingredient.name then
      { s with amount := s.amount + amount } :: rest
    else s :: addSelection rest ingredient amount

/-- Update the first ledger entry matching the given nutrient name:
accumulate consumption and recompute the percentage of NRV. -/
def updateFirstTracking (factor : ℚ) (inut : IngredientNutrient) :
    List NutrientTracking → List NutrientTracking
  | [] => []
  | t :: ts =>
    if t.nutrient.name == inut.nutrient.name then
      let consumed := t.consumed + inut.amount * factor
      { t with consumed := consumed,
               percentage := consumed / t.nutrient.nrv * 100 } :: ts
    else t :: updateFirstTracking factor inut ts

/-- updateTracking: fold the ingredient nutrients into the ledger and add
the scaled macros, with scaling factor amount / 100. -/
def updateTracking (ingredient : Ingredient) (amount : ℚ)
    (nutrientTracking : List NutrientTracking) (macros : MacroTracking) :
    List NutrientTracking × MacroTracking :=
  let factor := amount / 100
  (ingredient.nutrients.foldl
    (fun tr inut => updateFirstTracking factor inut tr) nutrientTracking,
   ⟨macros.protein + ingredient.macros.protein * factor,
    macros.carbs + ingredient.macros.carbs * factor,
    macros.fat + ingredient.macros.fat * factor⟩)

/-- State of the greedy selection loop.  The source also caches the running
calories in a variable, re-assigned to calculateTotalCalories of the current
macros after every update; the cache therefore always equals that
recomputation and is not carried separately here. -/
structure GreedyState where
  selections : List IngredientSelection
  tracking : List NutrientTracking
  macros : MacroTracking
deriving DecidableEq

/-- The while-loop guard: not all NRVs met, and calories below 95 percent of
target. -/
def guardHolds (targetCalories : ℚ) (s : GreedyState) : Bool :=
  !areAllNRVsMet s.tracking &&
    decide (calculateTotalCalories s.macros < targetCalories * 0.95)

/-- One iteration of the selection loop: `none` means the loop exits now
(guard false, or no candidate found), `some s2` means it continues with the
updated state.  A computed amount at most zero would continue with the state
unchanged, as the source does. -/
def greedyBody (ingredients : List Ingredient) (targetMacros : MacroTracking)
    (targetCalories : ℚ) (s : GreedyState) : Option GreedyState :=
  if guardHolds targetCalories s then
    let remainingCalories := targetCalories - calculateTotalCalories s.macros
    match findBestIngredient ingredients s.tracking s.macros targetMacros
        remainingCalories with
    | none => none
    | some best =>
      let optimalAmount := calculateOptimalAmount best s.tracking s.macros
        targetMacros remainingCalories
      if optimalAmount ≤ 0 then some s
      else
        let selections := addSelection s.selections best optimalAmount
        let updated := updateTracking best optimalAmount s.tracking s.macros
        some ⟨selections, updated.1, updated.2⟩
  else none

/-- Fuel-indexed unfolding of the while loop.  `none` means the fuel ran out
before the loop exited (the source loop has no iteration cap and can run
forever). -/
def greedyLoop (ingredients : List Ingredient) (targetMacros : MacroTracking)
    (targetCalories : ℚ) : Nat → GreedyState → Option GreedyState
  | 0, _ => none
  | fuel + 1, s =>
    match greedyBody ingredients targetMacros targetCalories s with
    | none => some s
    | some s2 => greedyLoop ingredients targetMacros targetCalories fuel s2

/-! ## Macro balancer (optimizeMacroBalance) -/

/-- Recompute the macro tracking from scratch over the selection list. -/
def recomputeMacros (selections : List IngredientSelection) : MacroTracking :=
  selections.foldl
    (fun (acc : MacroTracking) (s : IngredientSelection) =>
      let factor := s.amount / 100
      ⟨acc.protein + s.ingredient.macros.protein * factor,
       acc.carbs + s.ingredient.macros.carbs * factor,
       acc.fat + s.ingredient.macros.fat * factor⟩)
    ⟨0, 0, 0⟩

/-- One refinement pass of the macro balancer: for each selection whose
dominant macro still has a gap above 5 g, grow the amount by 5 percent up
to the per-item ceiling; then recompute the macros from scratch.  The
returned flag says whether the early-exit test (all three gaps from the
start of the pass below 5 in absolute value) fires after this pass. -/
def fineTunePass (targetMacros : MacroTracking)
    (st : List IngredientSelection × MacroTracking) :
    (List IngredientSelection × MacroTracking) × Bool :=
  let proteinDiff := targetMacros.protein - st.2.protein
  let carbsDiff := targetMacros.carbs - st.2.carbs
  let fatDiff := targetMacros.fat - st.2.fat
  let selections := st.1.map fun (s : IngredientSelection) =>
    let m := s.ingredient.macros
    let maxAmount : ℚ :=
      if strContains s.ingredient.name "Supplement" then 10 else 500
    if 5 < proteinDiff ∧ m.carbs < m.protein ∧ m.fat < m.protein then
      { s with amount := min maxAmount (s.amount * (1 + 0.05)) }
    else if 5 < carbsDiff ∧ m.protein < m.carbs ∧ m.fat < m.carbs then
      { s with amount := min maxAmount (s.amount * (1 + 0.05)) }
    else if 5 < fatDiff ∧ m.protein < m.fat ∧ m.carbs < m.fat then
      { s with amount := min maxAmount (s.amount * (1 + 0.05)) }
    else s
  ((selections, recomputeMacros selections),
   decide (|proteinDiff| < 5 ∧ |carbsDiff| < 5 ∧ |fatDiff| < 5))

/-- The balancer refinement loop, returning the final state together with
the number of executed passes (the source caps the loop at 10). -/
def fineTuneLoop (targetMacros : MacroTracking) :
    Nat → List IngredientSelection × MacroTracking →
    (List IngredientSelection × MacroTracking) × Nat
  | 0, st => (st, 0)
  | fuel + 1, st =>
    let pass := fineTunePass targetMacros st
    if pass.2 then (pass.1, 1)
    else
      let next := fineTuneLoop targetMacros fuel pass.1
      (next.1, next.2 + 1)

/-- optimizeMacroBalance.  When the current calories sit more than 5 percent
below target, every amount is scaled by targetCalories / currentCalories
(supplements with the extra 1.5 dampening cap, both kinds with their hard
ceilings) and the function returns; otherwise up to 10 refinement passes
run.  With zero current calories the JS scale factor is Infinity: the
supplement dampening min(Infinity, 1.5) is 1.5, and a positive food amount
clamps to the 500 ceiling (zero or negative amounts would give NaN or
negative Infinity in JS — corners no selector-produced state reaches, since
loop amounts are at least 1). -/
def optimizeMacroBalance (selectedIngredients : List IngredientSelection)
    (currentMacros targetMacros : MacroTracking) (targetCalories : ℚ) :
    List IngredientSelection :=
  let currentCalories := calculateTotalCalories currentMacros
  let calorieDiff := targetCalories - currentCalories
  if targetCalories * 0.05 < calorieDiff then
    selectedIngredients.map fun (s : IngredientSelection) =>
      if strContains s.ingredient.name "Supplement" then
        let dampened : ℚ :=
          if currentCalories = 0 then 1.5
          else min (targetCalories / currentCalories) 1.5
        { s with amount := min 10 (s.amount * dampened) }
      else
        if currentCalories = 0 then
          { s with amount := if 0 < s.amount then (500 : ℚ) else 0 }
        else
          { s with amount := min 500 (s.amount * (targetCalories / currentCalories)) }
  else
    (fineTuneLoop targetMacros 10 (selectedIngredients, currentMacros)).1.1

/-- selectOptimalIngredients: run the greedy loop from the fresh trackers,
then the balancer; `none` when the given fuel does not suffice for the loop
to exit on its own. -/
def selectOptimalIngredients (fuel : Nat) (ingredients : List Ingredient)
    (nutrients : List Nutrient) (targetMacros : MacroTracking)
    (targetCalories : ℚ) : Option (List IngredientSelection) :=
  (greedyLoop ingredients targetMacros targetCalories fuel
    ⟨[], initializeNutrientTracking nutrients, ⟨0, 0, 0⟩⟩).map
    fun st => optimizeMacroBalance st.selections st.macros targetMacros
      targetCalories

/-! ## Greedy meal distributor (distributeToMeals) -/

/-- The lexical comparator used to sort selections before distribution:
breakfast-leaning names first, dinner-leaning names last. -/
def mealSortCompare (a b : IngredientSelection) : ℤ :=
  let aName := lowerData a.ingredient.name
  let bName := lowerData b.ingredient.name
  if listContainsSub aName "oat".data || listContainsSub aName "egg".data ||
      listContainsSub aName "milk".data then -1
  else if listContainsSub bName "oat".data || listContainsSub bName "egg".data ||
      listContainsSub bName "milk".data then 1
  else if listContainsSub aName "rice".data || listContainsSub aName "meat".data ||
      listContainsSub aName "fish".data then 1
  else if listContainsSub bName "rice".data || listContainsSub bName "meat".data ||
      listContainsSub bName "fish".data then -1
  else 0

/-- The engine sort behind Array.prototype.sort, modelled as a stable merge
sort on the comparator.  The comparator is not a consistent order, so real
engines may produce other arrangements; no theorem below depends on the
arrangement. -/
def jsSortForMeals (selections : List IngredientSelection) :
    List IngredientSelection :=
  selections.mergeSort fun a b => decide (mealSortCompare a b ≤ 0)

/-- Fill one meal: walk the sorted selections, committing the portion of
each that fits the remaining meal-calorie budget when it exceeds 10 percent
of the entry (supplements capped at 5 g per meal), subtracting committed
grams from the entry, and stopping at 95 percent of the budget.  Returns
the committed meal ingredients and the selections with reduced amounts.
A zero-calorie entry makes portionRatio min(1, Infinity) = 1 in JS for the
positive remaining budget the stop guard leaves. -/
def mealFill (mealCalories : ℚ) :
    List IngredientSelection → ℚ →
    List DietMealIngredient × List IngredientSelection
  | [], _ => ([], [])
  | s :: rest, currentMealCalories =>
    if mealCalories * 0.95 ≤ currentMealCalories then ([], s :: rest)
    else
      let ingredientCaloriesPer100g :=
        calculateCaloriesFromMacros s.ingredient.macros
      let totalIngredientCalories :=
        s.amount / 100 * ingredientCaloriesPer100g
      let remainingMealCalories := mealCalories - currentMealCalories
      let portionRatio : ℚ :=
        if totalIngredientCalories = 0 then 1
        else min 1 (remainingMealCalories / totalIngredientCalories)
      if 0.1 < portionRatio then
        let mealAmount0 := s.amount * portionRatio
        let mealAmount :=
          if strContains s.ingredient.name "Supplement" then min mealAmount0 5
          else mealAmount0
        let next := mealFill mealCalories rest
          (currentMealCalories + mealAmount / 100 * ingredientCaloriesPer100g)
        (⟨s.ingredient, jsRound mealAmount⟩ :: next.1,
         { s with amount := s.amount - mealAmount } :: next.2)
      else
        let next := mealFill mealCalories rest currentMealCalories
        (next.1, s :: next.2)

/-- First pass over the meals, threading the shared selection pool. -/
def mealsPass (targetCalories : ℚ) :
    List Meal → List IngredientSelection →
    List DietMeal × List IngredientSelection
  | [], selections => ([], selections)
  | meal :: rest, selections =>
    let mealCalories := targetCalories * meal.kcalPercentage / 100
    let filled := mealFill mealCalories selections 0
    let next := mealsPass targetCalories rest filled.2
    (⟨meal, filled.1⟩ :: next.1, next.2)

/-- Array.prototype.reduce without an initial value: `none` on the empty
list models the TypeError the source throws there. -/
def jsReduceLargest : List Meal → Option Meal
  | [] => none
  | m :: ms =>
    some (ms.foldl
      (fun (mx : Meal) (meal : Meal) =>
        if mx.kcalPercentage < meal.kcalPercentage then meal else mx) m)

/-- Array.prototype.indexOf, by structural equality (the reduce result is a
list element, so reference and structural lookup agree on first duplicate
fields).  A miss returns the length, which makes the update below a no-op;
the miss is unreachable for a member. -/
def findIndexOfMeal : List Meal → Meal → Nat
  | [], _ => 0
  | m :: ms, target =>
    if m == target then 0 else findIndexOfMeal ms target + 1

/-- Update the list element at an index, leaving other entries (and an
out-of-range index) unchanged. -/
def modifyAt (f : DietMeal → DietMeal) : Nat → List DietMeal → List DietMeal
  | _, [] => []
  | 0, dm :: rest => f dm :: rest
  | i + 1, dm :: rest => dm :: modifyAt f i rest

/-- distributeToMeals of the greedy pipeline.  After the per-meal pass, any
selection still above its minimum unit (1 g supplement, 5 g food) is pushed,
capped at 5 g for supplements, onto the meal with the highest calorie
percentage.  An empty meal list makes the source throw on the
initial-value-free reduce; the error value models that exception. -/
def distributeToMeals (selectedIngredients : List IngredientSelection)
    (meals : List Meal) (targetCalories : ℚ) : Except String Diet :=
  let sortedIngredients := jsSortForMeals selectedIngredients
  let passed := mealsPass targetCalories meals sortedIngredients
  match jsReduceLargest meals with
  | none => Except.error "Reduce of empty array with no initial value"
  | some largestMeal =>
    let largestMealIndex := findIndexOfMeal meals largestMeal
    let leftovers : List DietMealIngredient := passed.2.filterMap
      fun (s : IngredientSelection) =>
        let isSupplementIngredient := strContains s.ingredient.name "Supplement"
        let minAmount : ℚ := if isSupplementIngredient then 1 else 5
        if minAmount < s.amount then
          let maxPerMeal : ℚ := if isSupplementIngredient then 5 else s.amount
          some ⟨s.ingredient, jsRound (min s.amount maxPerMeal)⟩
        else none
    Except.ok ⟨modifyAt
      (fun dm => { dm with ingredients := dm.ingredients ++ leftovers })
      largestMealIndex passed.1⟩

/-- The greedy getDiet pipeline, fuel-indexed through the selection loop and
with the ambient clock for the goal adjustment. -/
def getDiet (fuel : Nat) (input : GetDietInput) (now : ℤ) :
    Option (Except String Diet) :=
  let tdee := calculateTDEE input.sex input.age input.bodyWeight
    input.bodyFatPercentage input.activityLevel
  let targetCalories := adjustCaloriesForGoal tdee input.goal
    input.bodyWeight now
  let targetMacrosInGrams := calculateTargetMacros targetCalories
    input.targetMacros
  (selectOptimalIngredients fuel input.ingredients input.nutrients
    targetMacrosInGrams targetCalories).map
    fun selectedIngredients =>
      distributeToMeals selectedIngredients input.meals targetCalories

/-! ## LP selector (dietOptimizerLPSimple) -/

/-- Answer of the external LP solving routine: a feasibility flag and a
value per decision variable index (the source reads solution
x-index with a fallback of 0 for missing keys, which the total assignment
function models). -/
structure LPSolution where
  feasible : Bool
  assign : Nat → ℚ

/-- The LP module re-implements adjustCaloriesForGoal without the dead
clock read, so it needs no clock argument. -/
def lpAdjustCaloriesForGoal (tdee : ℚ) (goal : Goal) (bodyWeight : ℚ) : ℚ :=
  match goal with
  | .buildMuscle => tdee * 1.15
  | .loseFat _targetBodyFatPercentage _targetDate =>
      let minIntake : ℚ := if bodyWeight < 70 then 1200 else 1500
      max (tdee * 0.8) minIntake
  | .maintain => tdee

/-- Post-solve conversion: for a feasible solution, keep every ingredient
whose solved amount exceeds 1, rounded to integer grams; an infeasible
solution yields the empty selection. -/
def buildSelections (sol : LPSolution) (ingredients : List Ingredient) :
    List IngredientSelection :=
  if sol.feasible then
    ingredients.enum.filterMap fun (p : Nat × Ingredient) =>
      let amount := sol.assign p.1
      if 1 < amount then some ⟨p.2, jsRound amount⟩ else none
  else []

/-- The LP meal distributor: every meal receives each selection scaled by
the meal calorie percentage, except supplements, which go entirely (and
only) to a meal named Breakfast; entries below 1 g are dropped.  The source
also sums the selection calories into a local that is never read. -/
def lpDistributeToMeals (selectedIngredients : List IngredientSelection)
    (meals : List Meal) (targetCalories : ℚ) : Diet :=
  let _totalCalories := selectedIngredients.foldl
    (fun (acc : ℚ) (sel : IngredientSelection) =>
      acc + calculateCaloriesFromMacros sel.ingredient.macros * sel.amount / 100)
    0
  ⟨meals.map fun meal =>
    ⟨meal, selectedIngredients.filterMap fun (sel : IngredientSelection) =>
      let amount := sel.amount * (meal.kcalPercentage / 100)
      let amount :=
        if strContains sel.ingredient.name "Supplement" then
          (if meal.name = "Breakfast" then sel.amount else 0)
        else amount
      if 1 ≤ amount then some ⟨sel.ingredient, jsRound amount⟩ else none⟩⟩

/-- createFallbackDiet: first catalog matches for a protein food (200 g), a
carb food (150 g), a leafy vegetable (200 g), a fat food (30 g) and a
multivitamin (2 g), each only when present, distributed to the meals. -/
def createFallbackDiet (input : GetDietInput) : Diet :=
  let proteins := input.ingredients.filter fun i =>
    decide (20 < i.macros.protein) && !strContains i.name "Supplement"
  let carbs := input.ingredients.filter fun i =>
    decide (20 < i.macros.carbs) && !strContains i.name "Supplement"
  let veggies := input.ingredients.filter fun i =>
    listContainsSub (lowerData i.name) "spinach".data ||
    listContainsSub (lowerData i.name) "broccoli".data ||
    listContainsSub (lowerData i.name) "kale".data
  let fats := input.ingredients.filter fun i =>
    decide (40 < i.macros.fat) && !strContains i.name "Supplement"
  let multivitamin := input.ingredients.find? fun i =>
    strContains i.name "Multivitamin"
  let selections : List IngredientSelection :=
    (match proteins with
     | [] => []
     | p :: _ => [⟨p, 200⟩]) ++
    (match carbs with
     | [] => []
     | c :: _ => [⟨c, 150⟩]) ++
    (match veggies with
     | [] => []
     | v :: _ => [⟨v, 200⟩]) ++
    (match fats with
     | [] => []
     | f :: _ => [⟨f, 30⟩]) ++
    (match multivitamin with
     | none => []
     | some m => [⟨m, 2⟩])
  let tdee := calculateTDEE input.sex input.age input.bodyWeight
    input.bodyFatPercentage input.activityLevel
  let targetCalories := lpAdjustCaloriesForGoal tdee input.goal
    input.bodyWeight
  lpDistributeToMeals selections input.meals targetCalories

/-- The LP getDiet.  The construction of the LP model (objective,
constraints, per-ingredient variables) is handed to the external solving
routine, whose answer enters as the `sol` argument; everything after the
solve is modelled from the source. -/
def lpGetDiet (sol : LPSolution) (input : GetDietInput) : Diet :=
  let tdee := calculateTDEE input.sex input.age input.bodyWeight
    input.bodyFatPercentage input.activityLevel
  let targetCalories := lpAdjustCaloriesForGoal tdee input.goal
    input.bodyWeight
  let _targetMacrosInGrams := calculateTargetMacros targetCalories
    input.targetMacros
  let selectedIngredients := buildSelections sol input.ingredients
  if selectedIngredients.length < 5 then createFallbackDiet input
  else lpDistributeToMeals selectedIngredients input.meals targetCalories

/-! ## Auxiliary definitions used by the statements below -/

/-- Total grams of the named ingredient inside one diet meal. -/
def supplementMealTotal (dm : DietMeal) (nm : String) : ℚ :=
  (dm.ingredients.filter fun e => e.ingredient.name == nm).foldl
    (fun (acc : ℚ) (e : DietMealIngredient) => acc + e.amount) 0

/-- Running minimum of per-100g calories over a catalog suffix. -/
def minCalAux (q : ℚ) : List Ingredient → ℚ
  | [] => q
  | i :: l => minCalAux (min q (calculateCaloriesFromMacros i.macros)) l

/-! Concrete inputs used by counterexamples and witnesses. -/

/-- A tracked nutrient that nothing in the stalling catalog provides. -/
def nutrientA : Nutrient := ⟨"A", 100, "mg"⟩

/-- A nutrient carried by the stalling ingredient but absent from the
tracked catalog, so its contribution is silently dropped. -/
def nutrientB : Nutrient := ⟨"B", 50, "mg"⟩

/-- A zero-calorie ingredient whose only nutrient is untracked. -/
def zeolite : Ingredient := ⟨[⟨50, nutrientB⟩], ⟨0, 0, 0⟩, "Zeolite"⟩

/-- A positive-calorie food for the termination witness. -/
def chicken : Ingredient := ⟨[], ⟨31, 0, 3.6⟩, "Chicken Breast"⟩

/-- Nutrient provided by the magnesium supplement below. -/
def magnesium : Nutrient := ⟨"Magnesium", 2, "g"⟩

/-- A supplement with equal carb and fat content (so the balancer refinement
passes never touch it) that the greedy loop keeps re-selecting. -/
def magSupplement : Ingredient :=
  ⟨[⟨5, magnesium⟩], ⟨0, 7.5, 7.5⟩, "Mag Supplement"⟩

/-- A supplement used for the meal-distribution counterexample. -/
def creatine : Ingredient := ⟨[], ⟨0, 10, 0⟩, "Creatine Supplement"⟩

def breakfastMeal : Meal := ⟨"Breakfast", 100⟩

def dinnerMeal : Meal := ⟨"Dinner", 50⟩

def halfBreakfastMeal : Meal := ⟨"Breakfast", 50⟩

/-- An input whose catalog and meal list are empty (the LP fallback handles
it without any match). -/
def lpEmptyInput : GetDietInput :=
  ⟨.male, 30, 75, 15, .moderate, .maintain, ⟨30, 45, 25⟩, [], [], []⟩

/-- An infeasible answer from the LP solving routine. -/
def infeasibleSol : LPSolution := ⟨false, fun _ => 0⟩

/-- Greedy pipeline input with an empty meal list. -/
def emptyMealsInput : GetDietInput :=
  ⟨.male, 30, 75, 15, .moderate, .maintain, ⟨30, 45, 25⟩, [chicken],
   [nutrientA], []⟩

/-- Plain food used in the tracking-monotonicity witness. -/
def spinachFood : Ingredient := ⟨[⟨2, nutrientA⟩], ⟨2.9, 3.6, 0.4⟩, "Spinach"⟩

/-- The ledger invariant the selection loop maintains: positive reference
values and a percentage field that is exactly consumed / nrv * 100. -/
def trackingInvariant (tracking : List NutrientTracking) : Prop :=
  ∀ t ∈ tracking, 0 < t.nutrient.nrv ∧
    t.percentage = t.consumed / t.nutrient.nrv * 100

/-! ## Helper lemmas -/

lemma strContains_zeolite : strContains "Zeolite" "Supplement" = false := by
  decide

lemma strContains_mag : strContains "Mag Supplement" "Supplement" = true := by
  decide

lemma strContains_creatine :
    strContains "Creatine Supplement" "Supplement" = true := by decide

lemma name_A_ne_B : ("A" = "B") = False := eq_false (by decide)

lemma name_B_ne_A : ("B" = "A") = False := eq_false (by decide)

/-- Every amount the greedy loop computes is at least 1 gram: the final
clamp takes the max with the practical minimum (1 g supplement, 5 g food). -/
lemma one_le_calculateOptimalAmount (ingredient : Ingredient)
    (nutrientTracking : List NutrientTracking)
    (currentMacros targetMacros : MacroTracking) (remainingCalories : ℚ) :
    1 ≤ calculateOptimalAmount ingredient nutrientTracking currentMacros
      targetMacros remainingCalories := by
  unfold calculateOptimalAmount
  cases h : strContains ingredient.name "Supplement" <;>
    simp only [h, Bool.false_eq_true, if_false, if_true, le_max_iff] <;>
    norm_num

/-- The best-scoring ingredient is a catalog member. -/
lemma findBestIngredient_mem (ingredients : List Ingredient)
    (nutrientTracking : List NutrientTracking)
    (currentMacros targetMacros : MacroTracking) (remainingCalories : ℚ)
    (b : Ingredient)
    (h : findBestIngredient ingredients nutrientTracking currentMacros
      targetMacros remainingCalories = some b) : b ∈ ingredients := by
  unfold findBestIngredient at h
  suffices H : ∀ (l : List Ingredient) (acc : Option (Ingredient × Score)),
      (l.foldl (fun acc ingredient =>
        if (calculateIngredientScore ingredient nutrientTracking
            currentMacros targetMacros remainingCalories).beats
            (acc.map Prod.snd) = true then
          some (ingredient, calculateIngredientScore ingredient
            nutrientTracking currentMacros targetMacros remainingCalories)
        else acc)
        acc).map Prod.fst = some b →
      acc.map Prod.fst = some b ∨ b ∈ l by
    rcases H ingredients none h with h' | h'
    · simp at h'
    · exact h'
  intro l
  induction l with
  | nil => intro acc hacc; exact Or.inl hacc
  | cons i l ih =>
    intro acc hacc
    rw [List.foldl_cons] at hacc
    rcases ih _ hacc with h' | h'
    · by_cases hb : (calculateIngredientScore i nutrientTracking currentMacros
        targetMacros remainingCalories).beats (acc.map Prod.snd) = true
      · rw [if_pos hb] at h'
        simp only [Option.map_some', Option.some.injEq] at h'
        cases h'
        exact Or.inr (List.mem_cons_self _ _)
      · rw [if_neg hb] at h'
        exact Or.inl h'
    · exact Or.inr (List.mem_cons_of_mem i h')

/-- Adding `amount` grams of an ingredient raises the running calories by
amount / 100 times its per-100g calories. -/
lemma updateTracking_calories (ingredient : Ingredient) (amount : ℚ)
    (nutrientTracking : List NutrientTracking) (macros : MacroTracking) :
    calculateTotalCalories
      (updateTracking ingredient amount nutrientTracking macros).2 =
    calculateTotalCalories macros +
      amount / 100 * calculateCaloriesFromMacros ingredient.macros := by
  simp only [updateTracking, calculateTotalCalories,
    calculateCaloriesFromMacros]
  ring

lemma minCalAux_le (q : ℚ) :
    ∀ l : List Ingredient, minCalAux q l ≤ q
  | [] => le_refl q
  | i :: l =>
    le_trans (minCalAux_le (min q (calculateCaloriesFromMacros i.macros)) l)
      (min_le_left _ _)

lemma minCalAux_le_mem (q : ℚ) :
    ∀ (l : List Ingredient), ∀ i ∈ l,
      minCalAux q l ≤ calculateCaloriesFromMacros i.macros := by
  intro l
  induction l generalizing q with
  | nil => intro i hi; cases hi
  | cons j l ih =>
    intro i hi
    rcases List.mem_cons.mp hi with h | h
    · subst h
      exact le_trans (minCalAux_le _ l) (min_le_right _ _)
    · exact ih _ i h

lemma minCalAux_pos (q : ℚ) (hq : 0 < q) :
    ∀ (l : List Ingredient),
      (∀ i ∈ l, 0 < calculateCaloriesFromMacros i.macros) →
      0 < minCalAux q l := by
  intro l
  induction l generalizing q with
  | nil => intro _; exact hq
  | cons j l ih =>
    intro hall
    exact ih _ (lt_min hq (hall j (List.mem_cons_self j l)))
      (fun i hi => hall i (List.mem_cons_of_mem j hi))

/-- Any continuing iteration adds at least 1 gram of a catalog ingredient
to the running calories. -/
lemma greedyBody_some_calories (ingredients : List Ingredient)
    (targetMacros : MacroTracking) (targetCalories : ℚ) (s s2 : GreedyState)
    (h : greedyBody ingredients targetMacros targetCalories s = some s2) :
    ∃ best ∈ ingredients, ∃ a : ℚ, 1 ≤ a ∧
      calculateTotalCalories s2.macros =
        calculateTotalCalories s.macros +
          a / 100 * calculateCaloriesFromMacros best.macros := by
  unfold greedyBody at h
  by_cases hg : guardHolds targetCalories s = true
  · rw [if_pos hg] at h
    dsimp only at h
    cases hf : findBestIngredient ingredients s.tracking s.macros targetMacros
        (targetCalories - calculateTotalCalories s.macros) with
    | none => rw [hf] at h; cases h
    | some best =>
      rw [hf] at h
      dsimp only at h
      have h1 : 1 ≤ calculateOptimalAmount best s.tracking s.macros
          targetMacros (targetCalories - calculateTotalCalories s.macros) :=
        one_le_calculateOptimalAmount _ _ _ _ _
      rw [if_neg (by linarith)] at h
      simp only [Option.some.injEq] at h
      refine ⟨best, findBestIngredient_mem _ _ _ _ _ _ hf,
        calculateOptimalAmount best s.tracking s.macros targetMacros
          (targetCalories - calculateTotalCalories s.macros), h1, ?_⟩
      rw [← h]
      exact updateTracking_calories best
        (calculateOptimalAmount best s.tracking s.macros targetMacros
          (targetCalories - calculateTotalCalories s.macros))
        s.tracking s.macros
  · rw [if_neg hg] at h
    cases h

/-- When every catalog ingredient carries at least `c > 0` calories per
100 g, enough fuel makes the greedy loop exit on its own: every continuing
iteration raises the running calories by at least c / 100, so the measure
`targetCalories * 0.95 - calories` reaches zero. -/
lemma greedyLoop_total (ingredients : List Ingredient)
    (targetMacros : MacroTracking) (targetCalories c : ℚ) (hc : 0 < c)
    (hall : ∀ i ∈ ingredients,
      c ≤ calculateCaloriesFromMacros i.macros) :
    ∀ (fuel : Nat) (s : GreedyState),
      targetCalories * 0.95 - calculateTotalCalories s.macros ≤
        (fuel : ℚ) * (c / 100) →
      (greedyLoop ingredients targetMacros targetCalories (fuel + 1)
        s).isSome = true := by
  intro fuel
  induction fuel with
  | zero =>
    intro s hs
    have hng : ¬ (calculateTotalCalories s.macros < targetCalories * 0.95) := by
      push_neg
      simp only [Nat.cast_zero, zero_mul] at hs
      linarith
    have hguard : guardHolds targetCalories s = false := by
      unfold guardHolds
      simp [hng]
    show (greedyLoop ingredients targetMacros targetCalories 1 s).isSome = true
    have hbody : greedyBody ingredients targetMacros targetCalories s = none := by
      unfold greedyBody
      rw [if_neg (by simp [hguard])]
    simp [greedyLoop, hbody]
  | succ n ih =>
    intro s hs
    show (greedyLoop ingredients targetMacros targetCalories (n + 1 + 1)
      s).isSome = true
    rw [greedyLoop]
    cases hb : greedyBody ingredients targetMacros targetCalories s with
    | none => simp
    | some s2 =>
      obtain ⟨best, hmem, a, ha1, hcal⟩ :=
        greedyBody_some_calories _ _ _ _ _ hb
      have hcb : c ≤ calculateCaloriesFromMacros best.macros := hall best hmem
      have hprod : 1 * c ≤ a * calculateCaloriesFromMacros best.macros :=
        mul_le_mul ha1 hcb (le_of_lt hc) (le_trans zero_le_one ha1)
      apply ih s2
      rw [hcal]
      push_cast at hs ⊢
      linarith

/-- The balancer refinement loop executes at most as many passes as its
fuel. -/
lemma fineTuneLoop_count_le (targetMacros : MacroTracking) :
    ∀ (fuel : Nat) (st : List IngredientSelection × MacroTracking),
      (fineTuneLoop targetMacros fuel st).2 ≤ fuel := by
  intro fuel
  induction fuel with
  | zero => intro st; simp [fineTuneLoop]
  | succ n ih =>
    intro st
    unfold fineTuneLoop
    by_cases hp : (fineTunePass targetMacros st).2 = true
    · rw [if_pos hp]
      omega
    · rw [if_neg hp]
      have := ih (fineTunePass targetMacros st).1
      show (fineTuneLoop targetMacros n (fineTunePass targetMacros st).1).2 + 1 ≤
        n + 1
      omega

/-- Updating one nutrient with a non-negative contribution moves every
ledger entry upward (same nutrient, no smaller consumption) and preserves
the ledger invariant. -/
lemma updateFirstTracking_mono (factor : ℚ) (inut : IngredientNutrient)
    (hfa : 0 ≤ inut.amount * factor) :
    ∀ l : List NutrientTracking, trackingInvariant l →
      List.Forall₂
        (fun t t2 => t.nutrient = t2.nutrient ∧ t.consumed ≤ t2.consumed)
        l (updateFirstTracking factor inut l) ∧
      trackingInvariant (updateFirstTracking factor inut l) := by
  intro l
  induction l with
  | nil =>
    intro _
    exact ⟨List.Forall₂.nil, fun t ht => absurd ht (List.not_mem_nil t)⟩
  | cons t ts ih =>
    intro hinv
    have hinv_t := hinv t (List.mem_cons_self t ts)
    have hinv_ts : trackingInvariant ts :=
      fun u hu => hinv u (List.mem_cons_of_mem t hu)
    unfold updateFirstTracking
    by_cases hname : (t.nutrient.name == inut.nutrient.name) = true
    · rw [if_pos hname]
      refine ⟨List.Forall₂.cons ⟨rfl, by linarith⟩
        (List.forall₂_same.mpr fun u _ => ⟨rfl, le_refl _⟩), ?_⟩
      intro u hu
      rcases List.mem_cons.mp hu with h | h
      · subst h
        exact ⟨hinv_t.1, rfl⟩
      · exact hinv_ts u h
    · rw [if_neg hname]
      refine ⟨List.Forall₂.cons ⟨rfl, le_refl _⟩ (ih hinv_ts).1, ?_⟩
      intro u hu
      rcases List.mem_cons.mp hu with h | h
      · subst h
        exact hinv_t
      · exact (ih hinv_ts).2 u h

/-- Chaining of the ledger-step relation. -/
lemma trackingRel_trans :
    ∀ {a b c : List NutrientTracking},
      List.Forall₂
        (fun t t2 => t.nutrient = t2.nutrient ∧ t.consumed ≤ t2.consumed) a b →
      List.Forall₂
        (fun t t2 => t.nutrient = t2.nutrient ∧ t.consumed ≤ t2.consumed) b c →
      List.Forall₂
        (fun t t2 => t.nutrient = t2.nutrient ∧ t.consumed ≤ t2.consumed)
        a c := by
  intro a b c h1
  induction h1 generalizing c with
  | nil =>
    intro h2
    cases h2
    exact List.Forall₂.nil
  | cons hr _ ih =>
    intro h2
    cases h2 with
    | cons hr2 h2' =>
      exact List.Forall₂.cons ⟨hr.1.trans hr2.1, hr.2.trans hr2.2⟩ (ih h2')

/-- Folding all of an ingredient's nutrients (all with non-negative
per-100g amounts, scaled by a non-negative factor) moves the whole ledger
upward and preserves the invariant. -/
lemma updateNutrients_mono (factor : ℚ) (hf : 0 ≤ factor) :
    ∀ (inuts : List IngredientNutrient), (∀ i ∈ inuts, 0 ≤ i.amount) →
    ∀ l : List NutrientTracking, trackingInvariant l →
      List.Forall₂
        (fun t t2 => t.nutrient = t2.nutrient ∧ t.consumed ≤ t2.consumed)
        l (inuts.foldl (fun tr inut => updateFirstTracking factor inut tr) l) ∧
      trackingInvariant
        (inuts.foldl (fun tr inut => updateFirstTracking factor inut tr) l) := by
  intro inuts
  induction inuts with
  | nil =>
    intro _ l hinv
    exact ⟨List.forall₂_same.mpr fun u _ => ⟨rfl, le_refl _⟩, hinv⟩
  | cons i is ih =>
    intro hnn l hinv
    have hstep := updateFirstTracking_mono factor i
      (mul_nonneg (hnn i (List.mem_cons_self i is)) hf) l hinv
    have hrest := ih (fun j hj => hnn j (List.mem_cons_of_mem i hj))
      (updateFirstTracking factor i l) hstep.2
    rw [List.foldl_cons]
    exact ⟨trackingRel_trans hstep.1 hrest.1, hrest.2⟩

/-- From the step relation and the invariant on both sides, consumption and
percentage are pointwise non-decreasing. -/
lemma trackingRel_percentage :
    ∀ {a b : List NutrientTracking}, trackingInvariant a →
      trackingInvariant b →
      List.Forall₂
        (fun t t2 => t.nutrient = t2.nutrient ∧ t.consumed ≤ t2.consumed) a b →
      List.Forall₂
        (fun t t2 => t.consumed ≤ t2.consumed ∧ t.percentage ≤ t2.percentage)
        a b := by
  intro a b hia hib h
  induction h with
  | nil => exact List.Forall₂.nil
  | @cons t t2 ts ts2 hr h' ih =>
    have h1 := hia t (List.mem_cons_self t ts)
    have h2 := hib t2 (List.mem_cons_self t2 ts2)
    refine List.Forall₂.cons ⟨hr.2, ?_⟩
      (ih (fun u hu => hia u (List.mem_cons_of_mem t hu))
        (fun u hu => hib u (List.mem_cons_of_mem t2 hu)))
    rw [h1.2, h2.2, ← hr.1]
    exact mul_le_mul_of_nonneg_right ((div_le_div_iff_of_pos_right h1.1).mpr hr.2)
      (by norm_num)

/-- Math.round keeps a value that is at most 5 at most 5. -/
lemma jsRound_le_five {q : ℚ} (h : q ≤ 5) : jsRound q ≤ 5 := by
  unfold jsRound
  have h1 : (⌊q + 1/2⌋ : ℤ) ≤ ⌊(5 : ℚ) + 1/2⌋ := Int.floor_le_floor (by linarith)
  have h2 : ⌊(5 : ℚ) + 1/2⌋ = 5 := by norm_num [Int.floor_eq_iff]
  rw [h2] at h1
  exact_mod_cast h1

/-- Every supplement entry the per-meal pass commits is at most 5 grams. -/
lemma mealFill_supp_le (mealCalories : ℚ) :
    ∀ (sels : List IngredientSelection) (cur : ℚ),
      ∀ e ∈ (mealFill mealCalories sels cur).1,
        strContains e.ingredient.name "Supplement" = true → e.amount ≤ 5 := by
  intro sels
  induction sels with
  | nil => intro cur e he; cases he
  | cons s rest ih =>
    intro cur e he hsupp
    unfold mealFill at he
    by_cases hbreak : mealCalories * 0.95 ≤ cur
    · rw [if_pos hbreak] at he
      cases he
    · rw [if_neg hbreak] at he
      dsimp only at he
      set portionRatio : ℚ :=
        (if s.amount / 100 * calculateCaloriesFromMacros s.ingredient.macros = 0
         then 1
         else min 1 ((mealCalories - cur) /
           (s.amount / 100 * calculateCaloriesFromMacros s.ingredient.macros)))
        with hpr
      by_cases hratio : (0.1 : ℚ) < portionRatio
      · rw [if_pos hratio] at he
        rcases List.mem_cons.mp he with h | h
        · subst h
          simp only at hsupp
          rw [if_pos hsupp]
          exact jsRound_le_five (min_le_right _ _)
        · exact ih _ e h hsupp
      · rw [if_neg hratio] at he
        exact ih _ e he hsupp

/-- The first distribution pass emits exactly one diet meal per input meal,
in order. -/
lemma mealsPass_meals (targetCalories : ℚ) :
    ∀ (meals : List Meal) (sels : List IngredientSelection),
      (mealsPass targetCalories meals sels).1.map DietMeal.meal = meals := by
  intro meals
  induction meals with
  | nil => intro sels; rfl
  | cons meal rest ih =>
    intro sels
    unfold mealsPass
    simp only [List.map_cons, List.cons.injEq]
    exact ⟨trivial, ih _⟩

/-- Supplement entries after the first distribution pass are at most 5 g in
every meal. -/
lemma mealsPass_supp_le (targetCalories : ℚ) :
    ∀ (meals : List Meal) (sels : List IngredientSelection),
      ∀ dm ∈ (mealsPass targetCalories meals sels).1, ∀ e ∈ dm.ingredients,
        strContains e.ingredient.name "Supplement" = true → e.amount ≤ 5 := by
  intro meals
  induction meals with
  | nil => intro sels dm hdm; cases hdm
  | cons meal rest ih =>
    intro sels dm hdm e he hsupp
    unfold mealsPass at hdm
    rcases List.mem_cons.mp hdm with h | h
    · subst h
      exact mealFill_supp_le _ _ _ e he hsupp
    · exact ih _ dm h e he hsupp

/-- Membership in an updated list comes from an untouched element or from
the updater applied to an element. -/
lemma modifyAt_mem (f : DietMeal → DietMeal) :
    ∀ (i : Nat) (l : List DietMeal), ∀ dm ∈ modifyAt f i l,
      dm ∈ l ∨ ∃ dm0 ∈ l, dm = f dm0 := by
  intro i
  induction i with
  | zero =>
    intro l dm hdm
    cases l with
    | nil => cases hdm
    | cons x xs =>
      rcases List.mem_cons.mp hdm with h | h
      · exact Or.inr ⟨x, List.mem_cons_self x xs, h⟩
      · exact Or.inl (List.mem_cons_of_mem x h)
  | succ n ih =>
    intro l dm hdm
    cases l with
    | nil => cases hdm
    | cons x xs =>
      rcases List.mem_cons.mp hdm with h | h
      · exact Or.inl (h ▸ List.mem_cons_self x xs)
      · rcases ih xs dm h with h' | ⟨dm0, hdm0, hf⟩
        · exact Or.inl (List.mem_cons_of_mem x h')
        · exact Or.inr ⟨dm0, List.mem_cons_of_mem x hdm0, hf⟩

/-- Updating one entry with an ingredients-only change keeps the meal
projection of the list. -/
lemma modifyAt_map_meal (xs : List DietMealIngredient) :
    ∀ (i : Nat) (l : List DietMeal),
      (modifyAt (fun dm => { dm with ingredients := dm.ingredients ++ xs })
        i l).map DietMeal.meal = l.map DietMeal.meal := by
  intro i
  induction i with
  | zero =>
    intro l
    cases l with
    | nil => rfl
    | cons x l' => rfl
  | succ n ih =>
    intro l
    cases l with
    | nil => rfl
    | cons x l' =>
      simp only [modifyAt, List.map_cons, List.cons.injEq]
      exact ⟨trivial, ih l'⟩

/-- Every leftover entry pushed onto the largest meal is at most 5 grams
when it is a supplement. -/
lemma leftovers_supp_le (remaining : List IngredientSelection) :
    ∀ e ∈ remaining.filterMap (fun (s : IngredientSelection) =>
        let isSupplementIngredient := strContains s.ingredient.name "Supplement"
        let minAmount : ℚ := if isSupplementIngredient then 1 else 5
        if minAmount < s.amount then
          let maxPerMeal : ℚ := if isSupplementIngredient then 5 else s.amount
          some (⟨s.ingredient, jsRound (min s.amount maxPerMeal)⟩ :
            DietMealIngredient)
        else none),
      strContains e.ingredient.name "Supplement" = true → e.amount ≤ 5 := by
  intro e he hsupp
  rcases List.mem_filterMap.mp he with ⟨s, _, hs⟩
  dsimp only at hs
  by_cases hlt : (if strContains s.ingredient.name "Supplement" then (1:ℚ)
      else 5) < s.amount
  · rw [if_pos hlt] at hs
    simp only [Option.some.injEq] at hs
    subst hs
    simp only at hsupp
    rw [hsupp] at *
    simp only [if_true]
    exact jsRound_le_five (min_le_right _ _)
  · rw [if_neg hlt] at hs
    cases hs

/-! ## Claim theorems -/

/-- C7: the Energy Model is deterministic.  Calling calculateTDEE,
adjustCaloriesForGoal, and calculateTargetMacros twice with identical
inputs yields identical target calories and identical target macro grams,
even though the lose-fat branch reads the ambient clock (modelled by the
two arbitrary `now` values): the clock only feeds a dead local. -/
theorem c7_theorem (sex : Sex) (age bodyWeight bodyFatPercentage : ℚ)
    (activityLevel : ActivityLevel) (goal : Goal)
    (targetMacros : TargetMacros) (now₁ now₂ : ℤ) :
    (adjustCaloriesForGoal
        (calculateTDEE sex age bodyWeight bodyFatPercentage activityLevel)
        goal bodyWeight now₁,
      calculateTargetMacros
        (adjustCaloriesForGoal
          (calculateTDEE sex age bodyWeight bodyFatPercentage activityLevel)
          goal bodyWeight now₁) targetMacros) =
    (adjustCaloriesForGoal
        (calculateTDEE sex age bodyWeight bodyFatPercentage activityLevel)
        goal bodyWeight now₂,
      calculateTargetMacros
        (adjustCaloriesForGoal
          (calculateTDEE sex age bodyWeight bodyFatPercentage activityLevel)
          goal bodyWeight now₂) targetMacros) := by
  cases goal <;> rfl

/-- C8: for sex male, age 30, body weight 75, body fat 15 percent and
moderate activity, calculateTDEE computes lean mass 63.75, BMR 1747 and
TDEE 1747 * 1.55 = 2707.85 exactly, hence within the 0.1 tolerance. -/
theorem c8_theorem :
    calculateTDEE Sex.male 30 75 15 ActivityLevel.moderate = 2707.85 ∧
    |calculateTDEE Sex.male 30 75 15 ActivityLevel.moderate - 2707.85| ≤
      0.1 := by
  constructor <;> norm_num [calculateTDEE, activityMultiplier]

/-- C5: whenever the LP solve is infeasible or yields fewer than 5 distinct
ingredients, the LP getDiet returns exactly the deterministic fallback diet
(createFallbackDiet, the source-translated first-match construction), and
no exception path exists in this total model. -/
theorem c5_theorem (sol : LPSolution) (input : GetDietInput)
    (h : sol.feasible = false ∨
      (buildSelections sol input.ingredients).length < 5) :
    lpGetDiet sol input = createFallbackDiet input := by
  have hlen : (buildSelections sol input.ingredients).length < 5 := by
    rcases h with h | h
    · simp [buildSelections, h]
    · exact h
  unfold lpGetDiet
  rw [if_pos hlen]

/-- Witness for C5 at a concrete infeasible solution and empty catalog. -/
theorem c5_witness :
    infeasibleSol.feasible = false ∧
    lpGetDiet infeasibleSol lpEmptyInput = createFallbackDiet lpEmptyInput :=
  ⟨rfl, c5_theorem infeasibleSol lpEmptyInput (Or.inl rfl)⟩

/-- C10: with an empty meal list the greedy distributeToMeals reaches the
initial-value-free reduce over the meals and throws (modelled as the error
value), and the greedy getDiet never returns a Diet. -/
theorem c10_theorem :
    (∀ (sels : List IngredientSelection) (targetCalories : ℚ),
      distributeToMeals sels [] targetCalories =
        Except.error "Reduce of empty array with no initial value") ∧
    (∀ (fuel : Nat) (input : GetDietInput) (now : ℤ), input.meals = [] →
      ∀ d : Diet, getDiet fuel input now ≠ some (Except.ok d)) := by
  constructor
  · intro sels targetCalories
    rfl
  · intro fuel input now hmeals d
    unfold getDiet
    cases hsel : selectOptimalIngredients fuel input.ingredients
        input.nutrients
        (calculateTargetMacros
          (adjustCaloriesForGoal
            (calculateTDEE input.sex input.age input.bodyWeight
              input.bodyFatPercentage input.activityLevel)
            input.goal input.bodyWeight now) input.targetMacros)
        (adjustCaloriesForGoal
          (calculateTDEE input.sex input.age input.bodyWeight
            input.bodyFatPercentage input.activityLevel)
          input.goal input.bodyWeight now) with
    | none => simp [hsel]
    | some sels =>
      simp only [hsel, Option.map_some', hmeals, ne_eq, Option.some.injEq]
      intro hcontra
      rw [show distributeToMeals sels [] (adjustCaloriesForGoal
          (calculateTDEE input.sex input.age input.bodyWeight
            input.bodyFatPercentage input.activityLevel)
          input.goal input.bodyWeight now) =
        Except.error "Reduce of empty array with no initial value" from rfl]
        at hcontra
      cases hcontra

/-- Witness for C10 at a concrete empty-meal input. -/
theorem c10_witness :
    distributeToMeals [] [] 0 =
      Except.error "Reduce of empty array with no initial value" ∧
    (emptyMealsInput.meals = [] ∧
      getDiet 5 emptyMealsInput 0 ≠ some (Except.ok ⟨[]⟩)) :=
  ⟨c10_theorem.1 [] 0, rfl, c10_theorem.2 5 emptyMealsInput 0 rfl ⟨[]⟩⟩

/-- C3 (amended): every single amount calculateOptimalAmount computes for a
supplement ingredient lies in [1, 10] grams; the 10-gram cap applies to each
individual pick, not to the merged total of repeated picks. -/
theorem c3_theorem (ingredient : Ingredient)
    (nutrientTracking : List NutrientTracking)
    (currentMacros targetMacros : MacroTracking) (remainingCalories : ℚ)
    (hsupp : strContains ingredient.name "Supplement" = true) :
    1 ≤ calculateOptimalAmount ingredient nutrientTracking currentMacros
        targetMacros remainingCalories ∧
    calculateOptimalAmount ingredient nutrientTracking currentMacros
        targetMacros remainingCalories ≤ 10 := by
  refine ⟨one_le_calculateOptimalAmount _ _ _ _ _, ?_⟩
  unfold calculateOptimalAmount
  rw [hsupp]
  simp only [if_true]
  exact max_le (by norm_num) (min_le_left _ _)

/-- Witness for C3 at the concrete magnesium supplement. -/
theorem c3_witness :
    strContains magSupplement.name "Supplement" = true ∧
    (1 ≤ calculateOptimalAmount magSupplement [] ⟨0, 0, 0⟩ ⟨0, 0, 0⟩ 100 ∧
      calculateOptimalAmount magSupplement [] ⟨0, 0, 0⟩ ⟨0, 0, 0⟩ 100 ≤ 10) :=
  ⟨by decide, c3_theorem magSupplement [] ⟨0, 0, 0⟩ ⟨0, 0, 0⟩ 100 (by decide)⟩

/-- C3 is refuted as stated: on the one-supplement catalog below the greedy
selector re-selects the supplement in ten consecutive iterations (each pick
individually clamped to at most 10 g) and merges the amounts by name, and
the balancer leaves the merged entry unchanged, so the selection returned
for the supplement totals 12 g, exceeding the 10 g cap. -/
theorem c3_counterexample :
    selectOptimalIngredients 15 [magSupplement] [magnesium] ⟨100, 100, 9⟩ 12 =
      some [⟨magSupplement, 12⟩] ∧ ¬ ((12 : ℚ) ≤ 10) := by
  have h1 : greedyLoop [magSupplement] ⟨100, 100, 9⟩ 12 15
      ⟨[], initializeNutrientTracking [magnesium], ⟨0, 0, 0⟩⟩ =
      some ⟨[⟨magSupplement, 12⟩], [⟨magnesium, 0.6, 30⟩], ⟨0, 0.9, 0.9⟩⟩ := by
    norm_num [greedyLoop, greedyBody, guardHolds,
      areAllNRVsMet, calculateTotalCalories, initializeNutrientTracking,
      findBestIngredient, calculateIngredientScore,
      calculateCaloriesFromMacros, calculateMacroScore, findTracking,
      Score.add, Score.beats, calculateOptimalAmount, ExtQ.minE, ExtQ.collapse,
      calculateMacroLimitedAmount, jsRound, addSelection, updateTracking,
      updateFirstTracking, magnesium, magSupplement, strContains_mag]
  have h2 : optimizeMacroBalance [⟨magSupplement, 12⟩] ⟨0, 0.9, 0.9⟩
      ⟨100, 100, 9⟩ 12 = [⟨magSupplement, 12⟩] := by
    norm_num [optimizeMacroBalance, calculateTotalCalories, fineTuneLoop,
      fineTunePass, recomputeMacros, magSupplement]
  constructor
  · unfold selectOptimalIngredients
    rw [h1]
    simp only [Option.map_some', Option.some.injEq]
    exact h2
  · norm_num

/-- C1 is refuted as stated: on this catalog (positive NRV, non-negative
macros and nutrient amounts) the loop guard holds, yet one full iteration
of the selection loop returns a state whose nutrient ledger, macros and
hence remaining calories are all unchanged (only the selection list grows):
the zero-calorie ingredient is picked, its sole nutrient misses the tracked
catalog, and nothing advances — so the iteration neither strictly decreases
remaining calories nor advances NRV coverage, and the loop never exits. -/
theorem c1_counterexample :
    guardHolds 1000 ⟨[], [⟨nutrientA, 0, 0⟩], ⟨0, 0, 0⟩⟩ = true ∧
    greedyBody [zeolite] ⟨100, 100, 100⟩ 1000
        ⟨[], [⟨nutrientA, 0, 0⟩], ⟨0, 0, 0⟩⟩ =
      some ⟨[⟨zeolite, 500⟩], [⟨nutrientA, 0, 0⟩], ⟨0, 0, 0⟩⟩ := by
  constructor
  · norm_num [guardHolds, areAllNRVsMet, calculateTotalCalories, nutrientA]
  · norm_num [greedyBody, guardHolds, areAllNRVsMet, calculateTotalCalories,
      findBestIngredient, calculateIngredientScore,
      calculateCaloriesFromMacros, calculateMacroScore, findTracking,
      Score.add, Score.beats, calculateOptimalAmount, ExtQ.minE, ExtQ.collapse,
      calculateMacroLimitedAmount, jsRound, addSelection, updateTracking,
      updateFirstTracking, nutrientA, nutrientB, zeolite, strContains_zeolite,
      name_A_ne_B, name_B_ne_A]

/-- C1 (amended): the Macro Balancer executes at most 10 refinement passes;
and whenever every catalog ingredient carries strictly positive calories
per 100 g, the greedy selection loop does terminate — each iteration then
strictly increases accumulated calories by at least 1 gram of some catalog
ingredient, so enough fuel makes selectOptimalIngredients return.  (Without
the positivity assumption an iteration can leave remaining calories and
NRV coverage unchanged, and the loop need not terminate.) -/
theorem c1_theorem :
    (∀ (targetMacros : MacroTracking)
        (st : List IngredientSelection × MacroTracking),
      (fineTuneLoop targetMacros 10 st).2 ≤ 10) ∧
    (∀ (ingredients : List Ingredient) (nutrients : List Nutrient)
        (targetMacros : MacroTracking) (targetCalories : ℚ),
      (∀ i ∈ ingredients, 0 < calculateCaloriesFromMacros i.macros) →
      ∃ (fuel : Nat) (selections : List IngredientSelection),
        selectOptimalIngredients fuel ingredients nutrients targetMacros
          targetCalories = some selections) := by
  constructor
  · intro targetMacros st
    exact fineTuneLoop_count_le targetMacros 10 st
  · intro ingredients nutrients targetMacros targetCalories hall
    set c : ℚ := minCalAux 1 ingredients with hc_def
    have hc : 0 < c := minCalAux_pos 1 one_pos ingredients hall
    have hc100 : (0 : ℚ) < c / 100 := by positivity
    have hmem : ∀ i ∈ ingredients, c ≤ calculateCaloriesFromMacros i.macros :=
      fun i hi => minCalAux_le_mem 1 ingredients i hi
    set x : ℚ := targetCalories * 0.95 / (c / 100) with hx_def
    set fuel : Nat := (⌈x⌉).toNat with hfuel_def
    have hxle : x ≤ (fuel : ℚ) := by
      calc x ≤ (⌈x⌉ : ℚ) := Int.le_ceil x
      _ ≤ ((⌈x⌉.toNat : ℤ) : ℚ) := by exact_mod_cast Int.self_le_toNat ⌈x⌉
      _ = (fuel : ℚ) := by push_cast; rfl
    have hmeasure : targetCalories * 0.95 -
        calculateTotalCalories (⟨0, 0, 0⟩ : MacroTracking) ≤
        (fuel : ℚ) * (c / 100) := by
      have h1 : x * (c / 100) = targetCalories * 0.95 :=
        div_mul_cancel₀ _ (ne_of_gt hc100)
      have h2 : x * (c / 100) ≤ (fuel : ℚ) * (c / 100) :=
        mul_le_mul_of_nonneg_right hxle (le_of_lt hc100)
      have h3 : calculateTotalCalories (⟨0, 0, 0⟩ : MacroTracking) = 0 := by
        norm_num [calculateTotalCalories]
      rw [h3]
      linarith
    have hsome := greedyLoop_total ingredients targetMacros targetCalories c
      hc hmem fuel ⟨[], initializeNutrientTracking nutrients, ⟨0, 0, 0⟩⟩
      hmeasure
    obtain ⟨st, hst⟩ := Option.isSome_iff_exists.mp hsome
    refine ⟨fuel + 1, optimizeMacroBalance st.selections st.macros
      targetMacros targetCalories, ?_⟩
    unfold selectOptimalIngredients
    rw [hst]
    rfl

/-- Witness for C1 at a concrete all-positive-calorie catalog. -/
theorem c1_witness :
    (0 < calculateCaloriesFromMacros chicken.macros) ∧
    (∃ (fuel : Nat) (selections : List IngredientSelection),
      selectOptimalIngredients fuel [chicken] [nutrientA] ⟨0, 0, 0⟩ 100 =
        some selections) := by
  have hall : ∀ i ∈ [chicken], 0 < calculateCaloriesFromMacros i.macros := by
    intro i hi
    rw [List.mem_singleton] at hi
    subst hi
    norm_num [calculateCaloriesFromMacros, chicken]
  exact ⟨hall chicken (List.mem_singleton.mpr rfl),
    c1_theorem.2 [chicken] [nutrientA] ⟨0, 0, 0⟩ 100 hall⟩

/-- C2 (amended): in the Greedy meal distributor, every individual
supplement entry committed to any meal is at most 5 grams (both the
per-meal pass and the leftover pass cap supplements at 5 g before
rounding); a meal can still hold two such entries of one supplement, so
the per-meal total can reach 10 grams. -/
theorem c2_theorem (sels : List IngredientSelection) (meals : List Meal)
    (targetCalories : ℚ) (d : Diet)
    (h : distributeToMeals sels meals targetCalories = Except.ok d) :
    ∀ dm ∈ d.meals, ∀ e ∈ dm.ingredients,
      strContains e.ingredient.name "Supplement" = true → e.amount ≤ 5 := by
  unfold distributeToMeals at h
  dsimp only at h
  cases hred : jsReduceLargest meals with
  | none =>
    rw [hred] at h
    cases h
  | some largestMeal =>
    rw [hred] at h
    dsimp only at h
    simp only [Except.ok.injEq] at h
    subst h
    intro dm hdm e he hsupp
    rcases modifyAt_mem _ _ _ dm hdm with hdm' | ⟨dm0, hdm0, hdm_eq⟩
    · exact mealsPass_supp_le _ _ _ dm hdm' e he hsupp
    · subst hdm_eq
      rcases List.mem_append.mp he with hin | hin
      · exact mealsPass_supp_le _ _ _ dm0 hdm0 e hin hsupp
      · exact leftovers_supp_le _ e hin hsupp

/-- Witness for C2 at the concrete creatine distribution. -/
theorem c2_witness :
    distributeToMeals [⟨creatine, 10⟩] [breakfastMeal] 100 =
      Except.ok ⟨[⟨breakfastMeal, [⟨creatine, 5⟩, ⟨creatine, 5⟩]⟩]⟩ ∧
    (5 : ℚ) ≤ 5 := by
  have hd : distributeToMeals [⟨creatine, 10⟩] [breakfastMeal] 100 =
      Except.ok ⟨[⟨breakfastMeal, [⟨creatine, 5⟩, ⟨creatine, 5⟩]⟩]⟩ := by
    norm_num [distributeToMeals, jsSortForMeals, mealSortCompare, lowerData,
      List.mergeSort, mealsPass, mealFill, calculateCaloriesFromMacros,
      jsReduceLargest, findIndexOfMeal, modifyAt, jsRound, creatine,
      breakfastMeal, listContainsSub, charLower, List.filterMap_cons,
      strContains_creatine]
  refine ⟨hd, ?_⟩
  exact c2_theorem [⟨creatine, 10⟩] [breakfastMeal] 100
    ⟨[⟨breakfastMeal, [⟨creatine, 5⟩, ⟨creatine, 5⟩]⟩]⟩ hd
    ⟨breakfastMeal, [⟨creatine, 5⟩, ⟨creatine, 5⟩]⟩ (by simp)
    ⟨creatine, 5⟩ (by simp) strContains_creatine

/-- C2 is refuted as stated: distributing a 10 g creatine supplement over a
single breakfast meal commits a capped 5 g entry in the per-meal pass and a
second capped 5 g entry in the leftover pass, so the meal holds 10 g of the
supplement in total, exceeding the claimed 5 g per-meal bound. -/
theorem c2_counterexample :
    distributeToMeals [⟨creatine, 10⟩] [breakfastMeal] 100 =
      Except.ok ⟨[⟨breakfastMeal, [⟨creatine, 5⟩, ⟨creatine, 5⟩]⟩]⟩ ∧
    supplementMealTotal ⟨breakfastMeal, [⟨creatine, 5⟩, ⟨creatine, 5⟩]⟩
      "Creatine Supplement" = 10 ∧
    ¬ ((10 : ℚ) ≤ 5) := by
  refine ⟨?_, ?_, by norm_num⟩
  · norm_num [distributeToMeals, jsSortForMeals, mealSortCompare, lowerData,
      List.mergeSort, mealsPass, mealFill, calculateCaloriesFromMacros,
      jsReduceLargest, findIndexOfMeal, modifyAt, jsRound, creatine,
      breakfastMeal, listContainsSub, charLower, List.filterMap_cons,
      strContains_creatine]
  · norm_num [supplementMealTotal, creatine]

/-- C4: for every non-empty meal list, both distributors return a Diet with
exactly one DietMeal per input Meal, in input order (the greedy distributor
succeeds and its leftover push only edits one meal's ingredient list; the
LP distributor maps over the meals directly). -/
theorem c4_theorem (sels : List IngredientSelection) (meals : List Meal)
    (targetCalories : ℚ) (hne : meals ≠ []) :
    (∃ d, distributeToMeals sels meals targetCalories = Except.ok d ∧
      d.meals.map DietMeal.meal = meals) ∧
    (lpDistributeToMeals sels meals targetCalories).meals.map DietMeal.meal =
      meals := by
  constructor
  · cases meals with
    | nil => exact absurd rfl hne
    | cons m ms =>
      unfold distributeToMeals
      dsimp only
      cases hred : jsReduceLargest (m :: ms) with
      | none => simp [jsReduceLargest] at hred
      | some largestMeal =>
        refine ⟨_, rfl, ?_⟩
        dsimp only
        rw [modifyAt_map_meal]
        exact mealsPass_meals targetCalories (m :: ms) _
  · unfold lpDistributeToMeals
    dsimp only
    rw [List.map_map]
    exact List.map_id' meals

/-- Witness for C4 at a concrete one-meal input. -/
theorem c4_witness :
    ([breakfastMeal] ≠ ([] : List Meal)) ∧
    ((∃ d, distributeToMeals [] [breakfastMeal] 100 = Except.ok d ∧
        d.meals.map DietMeal.meal = [breakfastMeal]) ∧
      (lpDistributeToMeals [] [breakfastMeal] 100).meals.map DietMeal.meal =
        [breakfastMeal]) :=
  ⟨by simp, c4_theorem [] [breakfastMeal] 100 (by simp)⟩

/-- C9: the LP meal distributor sends a supplement only to meals named
exactly Breakfast; a Breakfast meal receives the full selected amount
(whenever that amount is at least 1 g and already integral, as every LP
selection amount is after rounding); and with no Breakfast meal the
supplement appears nowhere in the returned Diet. -/
theorem c9_theorem (sels : List IngredientSelection) (meals : List Meal)
    (targetCalories : ℚ) :
    (∀ dm ∈ (lpDistributeToMeals sels meals targetCalories).meals,
      ∀ e ∈ dm.ingredients,
        strContains e.ingredient.name "Supplement" = true →
        dm.meal.name = "Breakfast") ∧
    (∀ dm ∈ (lpDistributeToMeals sels meals targetCalories).meals,
      dm.meal.name = "Breakfast" →
      ∀ s ∈ sels, strContains s.ingredient.name "Supplement" = true →
        1 ≤ s.amount → jsRound s.amount = s.amount →
        (⟨s.ingredient, s.amount⟩ : DietMealIngredient) ∈ dm.ingredients) ∧
    ((∀ m ∈ meals, m.name ≠ "Breakfast") →
      ∀ dm ∈ (lpDistributeToMeals sels meals targetCalories).meals,
        ∀ e ∈ dm.ingredients,
          strContains e.ingredient.name "Supplement" = false) := by
  have hmain : ∀ dm ∈ (lpDistributeToMeals sels meals targetCalories).meals,
      ∀ e ∈ dm.ingredients,
        strContains e.ingredient.name "Supplement" = true →
        dm.meal.name = "Breakfast" := by
    intro dm hdm e he hsupp
    unfold lpDistributeToMeals at hdm
    dsimp only at hdm
    rcases List.mem_map.mp hdm with ⟨m, _, hm⟩
    subst hm
    dsimp only at he ⊢
    rcases List.mem_filterMap.mp he with ⟨s, _, hs⟩
    by_cases hkeep : (1 : ℚ) ≤
        (if strContains s.ingredient.name "Supplement" = true then
          (if m.name = "Breakfast" then s.amount else 0)
        else s.amount * (m.kcalPercentage / 100))
    · rw [if_pos hkeep] at hs
      simp only [Option.some.injEq] at hs
      subst hs
      dsimp only at hsupp
      rw [hsupp] at hkeep
      simp only [if_true] at hkeep
      by_cases hb : m.name = "Breakfast"
      · exact hb
      · rw [if_neg hb] at hkeep
        norm_num at hkeep
    · rw [if_neg hkeep] at hs
      cases hs
  refine ⟨hmain, ?_, ?_⟩
  · intro dm hdm hb s hsel hsupp h1 hint
    unfold lpDistributeToMeals at hdm
    dsimp only at hdm
    rcases List.mem_map.mp hdm with ⟨m, _, hm⟩
    subst hm
    dsimp only at hb ⊢
    refine List.mem_filterMap.mpr ⟨s, hsel, ?_⟩
    dsimp only
    rw [hsupp]
    simp only [if_true, hb]
    rw [if_pos h1, hint]
  · intro hnone dm hdm e he
    by_cases hsupp : strContains e.ingredient.name "Supplement" = true
    · exfalso
      have hb := hmain dm hdm e he hsupp
      unfold lpDistributeToMeals at hdm
      dsimp only at hdm
      rcases List.mem_map.mp hdm with ⟨m, hmmem, hm⟩
      subst hm
      exact hnone m hmmem hb
    · exact Bool.not_eq_true _ |>.mp hsupp

/-- Witness for C9: a 3 g magnesium supplement lands, in full, in the
Breakfast meal of the LP distribution. -/
theorem c9_witness :
    ((⟨halfBreakfastMeal, [⟨magSupplement, 3⟩]⟩ : DietMeal) ∈
      (lpDistributeToMeals [⟨magSupplement, 3⟩]
        [halfBreakfastMeal, dinnerMeal] 100).meals) ∧
    ((⟨magSupplement, (3 : ℚ)⟩ : DietMealIngredient) ∈
      (⟨halfBreakfastMeal, [⟨magSupplement, 3⟩]⟩ : DietMeal).ingredients) := by
  have hdm : (⟨halfBreakfastMeal, [⟨magSupplement, 3⟩]⟩ : DietMeal) ∈
      (lpDistributeToMeals [⟨magSupplement, 3⟩]
        [halfBreakfastMeal, dinnerMeal] 100).meals := by
    norm_num [lpDistributeToMeals, halfBreakfastMeal, dinnerMeal,
      magSupplement, jsRound, List.filterMap_cons, strContains_mag]
  refine ⟨hdm, ?_⟩
  have := (c9_theorem [⟨magSupplement, 3⟩] [halfBreakfastMeal, dinnerMeal]
      100).2.1 ⟨halfBreakfastMeal, [⟨magSupplement, 3⟩]⟩ hdm rfl
    ⟨magSupplement, 3⟩ (List.mem_singleton.mpr rfl) strContains_mag
    (by norm_num) (by norm_num [jsRound])
  exact this

/-- C6: within the invariant the selection loop maintains (positive NRVs,
percentage = consumed / nrv * 100), an updateTracking call with
non-negative amount and non-negative per-100g nutrient amounts leaves every
nutrient's consumed value and percentage at least as large as before. -/
theorem c6_theorem (ingredient : Ingredient) (amount : ℚ)
    (tracking : List NutrientTracking) (macros : MacroTracking)
    (hamount : 0 ≤ amount)
    (hnn : ∀ inut ∈ ingredient.nutrients, 0 ≤ inut.amount)
    (hinv : trackingInvariant tracking) :
    List.Forall₂
      (fun t t2 => t.consumed ≤ t2.consumed ∧ t.percentage ≤ t2.percentage)
      tracking (updateTracking ingredient amount tracking macros).1 := by
  have hf : (0 : ℚ) ≤ amount / 100 := by positivity
  have h := updateNutrients_mono (amount / 100) hf ingredient.nutrients hnn
    tracking hinv
  exact trackingRel_percentage hinv h.2 h.1

/-- Witness for C6: adding 50 g of spinach to a ledger at 10 percent
coverage leaves consumption and percentage no smaller. -/
theorem c6_witness :
    ((0 : ℚ) ≤ 50) ∧
    List.Forall₂
      (fun (t t2 : NutrientTracking) =>
        t.consumed ≤ t2.consumed ∧ t.percentage ≤ t2.percentage)
      [⟨nutrientA, 10, 10⟩]
      (updateTracking spinachFood 50 [⟨nutrientA, 10, 10⟩] ⟨0, 0, 0⟩).1 := by
  refine ⟨by norm_num, ?_⟩
  refine c6_theorem spinachFood 50 [⟨nutrientA, 10, 10⟩] ⟨0, 0, 0⟩
    (by norm_num) ?_ ?_
  · intro inut hinut
    rw [show spinachFood.nutrients = [⟨2, nutrientA⟩] from rfl] at hinut
    rw [List.mem_singleton] at hinut
    subst hinut
    norm_num
  · intro t ht
    rw [List.mem_singleton] at ht
    subst ht
    norm_num [nutrientA]
